import Mathlib

/-!
Verification of the editing-session engine of the AI Photo Editor
(src/Advanced_AI_Photo_Editor.py, class PhotoEditor).

Shallow embedding conventions:
* A PIL image is modelled as `Image`: width, height, channel mode
  (RGB or RGBA) and a flat row-major list of pixels.  Each pixel carries
  four unsigned byte samples r, g, b, a; for an RGB-mode image the `a`
  field is normalised to 255 (PIL simply has no alpha band there).
* The mutable fields of the `PhotoEditor` object that carry image state
  (`original_image`, `current_image`, `history`, `redo_stack`) form
  `EditorState`; each Python method becomes a function from state to
  state.  Display-only state (zoom level, tk canvas, status bar, the
  welcome screen image) is omitted: no claim depends on it, and
  `open_image` overwrites `current_image` before any claim's scenario
  starts.
* Python `list.pop()` is `pyPop` (returns `none` on the empty list,
  modelling the `IndexError`); `list.pop(0)` is `List.tail`;
  `list.append` is `++ [x]`; `.copy()` on an immutable value is the
  identity.
* C `float`/`double` arithmetic inside PIL and OpenCV is modelled as
  exact rational/integer arithmetic with the exact truncation or
  rounding step the C code performs, and every concrete witness uses
  factors that are exactly representable as binary doubles (1/2, 3/4),
  so the modelled sample values coincide with the float-computed ones.
-/

/-- One pixel: four unsigned 8-bit samples.  For RGB-mode images the
`a` field is kept at 255 by convention. -/
structure Pixel where
  r : Nat
  g : Nat
  b : Nat
  a : Nat
deriving DecidableEq

/-- PIL channel modes used by the program. -/
inductive Mode where
  | RGB
  | RGBA
deriving DecidableEq

/-- An in-memory decoded raster image (the PIL `Image` object). -/
structure Image where
  width : Nat
  height : Nat
  mode : Mode
  data : List Pixel
deriving DecidableEq

/-- PIL `img.convert` to RGB as used by the program: the result is in
RGB mode; converting from RGBA drops the alpha band (normalised here to
`a = 255`), converting from RGB is the identity on samples. -/
def Image.convertRGB (img : Image) : Image :=
  { img with mode := Mode.RGB,
             data := img.data.map (fun p => { r := p.r, g := p.g, b := p.b, a := 255 }) }

/-- PIL `Image.new` with an RGBA target and an opaque colour (the hex
string returned by the colour chooser): a solid image, alpha 255. -/
def Image.new (m : Mode) (w h : Nat) (r g b : Nat) : Image :=
  { width := w, height := h, mode := m, data := List.replicate (w * h) ⟨r, g, b, 255⟩ }

/-- The image-state fields of the `PhotoEditor` object. -/
structure EditorState where
  original : Option Image
  current : Option Image
  history : List Image
  redo_stack : List Image
deriving DecidableEq

/-- State right after `__init__` (no image loaded; the drawn welcome
screen is display-only and is overwritten by `open_image`). -/
def initialState : EditorState :=
  { original := none, current := none, history := [], redo_stack := [] }

/-- Python `list.pop()`: removes and returns the last element, or fails
(`IndexError`) on an empty list. -/
def pyPop {α : Type} (l : List α) : Option (α × List α) :=
  match l with
  | [] => none
  | x :: xs => some ((x :: xs).getLast (List.cons_ne_nil x xs), (x :: xs).dropLast)

/-- `PhotoEditor.save_history` (source lines 214-228): if an image is
loaded, append an RGB-converted copy of the current image to `history`;
if the history then holds more than 20 entries, drop the oldest
(index 0); finally clear `redo_stack`. -/
def save_history (s : EditorState) : EditorState :=
  match s.current with
  | none => s
  | some img =>
    let hist := s.history ++ [img.convertRGB]
    { s with history := if 20 < hist.length then hist.tail else hist,
             redo_stack := [] }

/-- `PhotoEditor.open_image` (source lines 230-261), success path with
the decoded file contents `img`: convert to RGB, install it as both
`original_image` and `current_image`, clear both logs, then
`save_history` pushes the baseline. -/
def open_image (s : EditorState) (img : Image) : EditorState :=
  let orig := img.convertRGB
  save_history { s with original := some orig, current := some orig,
                        history := [], redo_stack := [] }

/-- `PhotoEditor.undo` (source lines 353-360): only if `history` has
more than one entry, move its last element onto `redo_stack` and make
`current_image` a copy of the new last history entry. -/
def undo (s : EditorState) : EditorState :=
  if h : 1 < s.history.length then
    have hne : s.history ≠ [] := by
      intro hnil
      rw [hnil] at h
      simp at h
    have hr : s.history.dropLast ≠ [] := by
      apply List.length_pos.mp
      rw [List.length_dropLast]
      omega
    { s with history := s.history.dropLast,
             redo_stack := s.redo_stack ++ [s.history.getLast hne],
             current := some (s.history.dropLast.getLast hr) }
  else s

/-- `PhotoEditor.redo` (source lines 362-369): if `redo_stack` is
non-empty, first call `save_history` (which also clears `redo_stack`),
then pop from `redo_stack` and install the popped image as
`current_image`.  The pop is modelled with `pyPop`; popping an empty
list is the Python `IndexError`. -/
def redo (s : EditorState) : Except String EditorState :=
  if s.redo_stack ≠ [] then
    let s1 := save_history s
    match pyPop s1.redo_stack with
    | none => Except.error "IndexError: pop from empty list"
    | some (img, rest) => Except.ok { s1 with redo_stack := rest, current := some img }
  else Except.ok s

/-- Iterated `save_history`: `saveN n s` performs `n` successive saves. -/
def saveN (n : Nat) (s : EditorState) : EditorState :=
  match n with
  | 0 => s
  | k + 1 => save_history (saveN k s)

-- ---------------------------------------------------------------------
-- The saturation adjustment (ImageEnhance.Color)
-- ---------------------------------------------------------------------

/-- PIL RGB-to-L luminance (libImaging convert.c, macro L24 with its
built-in rounding term 0x8000): `(19595 r + 38470 g + 7471 b + 32768) >> 16`. -/
def luma (p : Pixel) : Nat :=
  (19595 * p.r + 38470 * p.g + 7471 * p.b + 32768) >>> 16

/-- One channel of PIL `Image.blend(im1, im2, alpha)` (libImaging
Blend.c) at blend weight `alpha = value/100`: for `0 ≤ alpha ≤ 1` the C
code truncates `in1 + alpha*(in2-in1)` to an unsigned byte; outside
that range it clips the extrapolated value to [0,255] before
truncating.  The C doubles are modelled exactly: the blended value
times 100 is the integer `100*c1 + value*(c2-c1)`, and truncation of
the non-negative quantity is division by 100. -/
def blendChan (value : Nat) (c1 c2 : Nat) : Nat :=
  let N : Int := 100 * (c1 : Int) + (value : Int) * ((c2 : Int) - (c1 : Int))
  if value ≤ 100 then (N.toNat) / 100
  else if N ≤ 0 then 0
  else if 25500 ≤ N then 255
  else (N.toNat) / 100

/-- `ImageEnhance.Color(img).enhance(value/100)`: blend between the
grayscale degenerate (luma broadcast to all three channels, alpha
preserved) and the image itself with weight `value/100`.  The slider
value (a decimal in [0,200] in the source) is modelled as an integer
position. -/
def colorEnhance (value : Nat) (img : Image) : Image :=
  { img with data := img.data.map (fun p =>
      let l := luma p
      { r := blendChan value l p.r, g := blendChan value l p.g,
        b := blendChan value l p.b, a := p.a }) }

/-- `PhotoEditor.change_saturation` (source lines 462-474): if an image
is loaded, optionally `save_history`, then replace `current_image` by
`ImageEnhance.Color(current_image).enhance(float(value)/100)`.  The
toolbar slider (source lines 87-88) always calls this with
`save=True`. -/
def change_saturation (value : Nat) (save : Bool) (s : EditorState) : EditorState :=
  match s.current with
  | none => s
  | some img =>
    let s1 := if save then save_history s else s
    { s1 with current := some (colorEnhance value img) }

/-- An interactive saturation-slider gesture: the ttk slider fires its
command callback once per movement, so a gesture is the list of
intermediate slider values, each processed by `change_saturation` with
`save=True`. -/
def saturationGesture (values : List Nat) (s : EditorState) : EditorState :=
  values.foldl (fun st v => change_saturation v true st) s

/-- `ImageEnhance.Brightness(img).enhance(value/100)`: blend between
the all-black degenerate (zero colour samples, alpha preserved) and the
image itself with weight `value/100`. -/
def brightnessEnhance (value : Nat) (img : Image) : Image :=
  { img with data := img.data.map (fun p =>
      { r := blendChan value 0 p.r, g := blendChan value 0 p.g,
        b := blendChan value 0 p.b, a := p.a }) }

/-- `PhotoEditor.change_brightness` (source lines 476-487): if an image
is loaded, optionally `save_history`, then replace `current_image` by
`ImageEnhance.Brightness(current_image).enhance(float(value)/100)`.
The toolbar slider (source lines 93-94) always calls this with
`save=True`. -/
def change_brightness (value : Nat) (save : Bool) (s : EditorState) : EditorState :=
  match s.current with
  | none => s
  | some img =>
    let s1 := if save then save_history s else s
    { s1 with current := some (brightnessEnhance value img) }

/-- An interactive brightness-slider gesture: one `change_brightness`
call with `save=True` per slider movement. -/
def brightnessGesture (values : List Nat) (s : EditorState) : EditorState :=
  values.foldl (fun st v => change_brightness v true st) s

-- ---------------------------------------------------------------------
-- The negative filter (ImageOps.invert)
-- ---------------------------------------------------------------------

/-- `ImageOps.invert` as called by `PhotoEditor.apply_negative` (source
lines 438-444), per Pillow 9.2.0 and later: an RGBA image is
special-cased (`image.point` with the inversion table — colour bands
inverted, alpha preserved), every other mode the program produces goes
through `ImageOps._lut`, which maps the table `255 - i` over the RGB
bands.  On both of this program's modes the three colour channels
become `255 - sample` and the alpha channel, when present, is
untouched. -/
def invert (img : Image) : Image :=
  match img.mode with
  | Mode.RGBA =>
    { img with data := img.data.map (fun p =>
        { r := 255 - p.r, g := 255 - p.g, b := 255 - p.b, a := p.a }) }
  | Mode.RGB =>
    { img with data := img.data.map (fun p =>
        { r := 255 - p.r, g := 255 - p.g, b := 255 - p.b, a := p.a }) }

-- ---------------------------------------------------------------------
-- The sepia filter
-- ---------------------------------------------------------------------

/-- Round `num / den` to the nearest integer, ties to even — the
rounding of C `rint`/OpenCV `cvRound` under the default FPU mode. -/
def roundHalfEven (num den : Nat) : Nat :=
  let q := num / den
  let r := num % den
  if 2 * r < den then q
  else if den < 2 * r then q + 1
  else if q % 2 = 0 then q else q + 1

/-- One output channel of `cv2.transform` with a fixed 3x3 row on a
3-channel uint8 source: OpenCV computes `m * src` per pixel and stores
it back at the source depth with `saturate_cast` (round to nearest
then clamp to [0,255]).  The matrix rows are scaled by 1000 to stay in
integers: row (a,b,c)/1000. -/
def sepiaChan (c1 c2 c3 : Nat) (p : Pixel) : Nat :=
  min (roundHalfEven (c1 * p.r + c2 * p.g + c3 * p.b) 1000) 255

/-- `cv2.transform(img, sepia_matrix)` (source lines 451-456) on an RGB
image: rows 0.393/0.769/0.189, 0.349/0.686/0.168, 0.272/0.534/0.131,
output saturated back to uint8 per channel. -/
def cv2transformSepia (img : Image) : Image :=
  { img with data := img.data.map (fun p =>
      { r := sepiaChan 393 769 189 p,
        g := sepiaChan 349 686 168 p,
        b := sepiaChan 272 534 131 p,
        a := p.a }) }

/-- `np.clip(sepia_img, 0, 255)` (source line 457): per-sample clamp;
the lower bound is vacuous on naturals. -/
def npClip255 (img : Image) : Image :=
  { img with data := img.data.map (fun p =>
      { r := min p.r 255, g := min p.g 255, b := min p.b 255, a := p.a }) }

/-- `.astype(uint8)` (source line 458): wraparound conversion to
unsigned bytes. -/
def astypeUint8 (img : Image) : Image :=
  { img with data := img.data.map (fun p =>
      { r := p.r % 256, g := p.g % 256, b := p.b % 256, a := p.a }) }

/-- `sepia_filter` (source lines 449-458), the pixel pipeline of
`PhotoEditor.apply_sepia` on an RGB image: transform, clip, cast. -/
def sepia_filter (img : Image) : Image :=
  astypeUint8 (npClip255 (cv2transformSepia img))

/-- Spec-side definition, following the claim's words for C7: apply the
fixed 3x3 matrix to the RGB channels of each pixel, then clamp each
output channel to [0,255] before truncating to an integer.  Kept
separate from the source-side `sepia_filter` for comparison. -/
def sepiaTone_spec (img : Image) : Image :=
  { img with data := img.data.map (fun p =>
      { r := min ((393 * p.r + 769 * p.g + 189 * p.b) / 1000) 255,
        g := min ((349 * p.r + 686 * p.g + 168 * p.b) / 1000) 255,
        b := min ((272 * p.r + 534 * p.g + 131 * p.b) / 1000) 255,
        a := p.a }) }

-- ---------------------------------------------------------------------
-- Alpha compositing (Image.alpha_composite) and custom background
-- ---------------------------------------------------------------------

/-- Pillow's approximate division by 255 (libImaging
AlphaComposite.c, macro SHIFTFORDIV255): `((x >> 8) + x) >> 8`. -/
def SHIFTFORDIV255 (x : Nat) : Nat := ((x >>> 8) + x) >>> 8

/-- One pixel of `Image.alpha_composite(dst, src)` — `src` over `dst` —
transcribed from libImaging AlphaComposite.c with PRECISION_BITS = 7:
if the source is fully transparent, keep the destination pixel;
otherwise blend with the fixed-point coefficients used there. -/
def alphaCompositePixel (dst src : Pixel) : Pixel :=
  if src.a = 0 then dst
  else
    let blend := dst.a * (255 - src.a)
    let outa255 := src.a * 255 + blend
    let coef1 := src.a * 255 * 255 * 128 / outa255
    let coef2 := 255 * 128 - coef1
    { r := SHIFTFORDIV255 (src.r * coef1 + dst.r * coef2 + 16384) >>> 7,
      g := SHIFTFORDIV255 (src.g * coef1 + dst.g * coef2 + 16384) >>> 7,
      b := SHIFTFORDIV255 (src.b * coef1 + dst.b * coef2 + 16384) >>> 7,
      a := SHIFTFORDIV255 (outa255 + 128) }

/-- `Image.alpha_composite(dst, src)` on two equal-size RGBA images:
pixelwise alpha-over blend, result in RGBA mode. -/
def alpha_composite (dst src : Image) : Image :=
  { width := dst.width, height := dst.height, mode := Mode.RGBA,
    data := List.zipWith alphaCompositePixel dst.data src.data }

/-- `PhotoEditor.set_custom_background` (source lines 539-562) with the
colour the user picked: refuse (info dialog, no state change) unless an
image is loaded and in RGBA mode; otherwise build a solid opaque RGBA
background of the same size, `save_history`, and composite the current
image over it. -/
def set_custom_background (r g b : Nat) (s : EditorState) : EditorState × Option String :=
  match s.current with
  | none => (s, some "Please remove background first to make it transparent.")
  | some img =>
    if img.mode = Mode.RGBA then
      let bg := Image.new Mode.RGBA img.width img.height r g b
      let s1 := save_history s
      ({ s1 with current := some (alpha_composite bg img) }, none)
    else (s, some "Please remove background first to make it transparent.")

-- ---------------------------------------------------------------------
-- Background removal (cv2.grabCut)
-- ---------------------------------------------------------------------

/-- Modelled from the spec: the external `cv2.grabCut` call plus mask
extraction of source lines 501-520.  The iterative GMM/min-cut
estimation itself is outside the repository (OpenCV), so the produced
0/1 foreground mask is abstracted as the parameter `mask`; what is kept
of OpenCV's semantics is its hard failure mode used by the claim: the
seed rectangle is `(10, 10, w-20, h-20)`, and with a non-positive
width or height the internal `Mat` region-of-interest assertion makes
`cv2.grabCut` raise `cv2.error`. -/
def cv2grabCutStep (mask : Image → Except String (List Nat)) (img : Image) :
    Except String (List Nat) :=
  if img.width ≤ 20 ∨ img.height ≤ 20 then
    Except.error "cv2.error: degenerate grabCut rectangle"
  else mask img

/-- Source lines 524-529: multiply the image by the 0/1 mask
(`result = img_cv * mask2`), convert to RGBA and set the alpha channel
to `mask2 * 255`. -/
def applyGrabCutMask (img : Image) (mask : List Nat) : Image :=
  { width := img.width, height := img.height, mode := Mode.RGBA,
    data := List.zipWith (fun p m => { r := p.r * m, g := p.g * m, b := p.b * m, a := m * 255 })
      img.data mask }

/-- `PhotoEditor.remove_background` (source lines 489-537): if an image
is loaded, `save_history`, then run grabCut inside try/except — on a
`cv2.error` the handler shows the message and leaves `current_image`
unchanged; on success the masked RGBA image becomes current.  The
second component is the surfaced error, if any. -/
def remove_background (mask : Image → Except String (List Nat)) (s : EditorState) :
    EditorState × Option String :=
  match s.current with
  | none => (s, none)
  | some img =>
    let s1 := save_history s
    match cv2grabCutStep mask img with
    | Except.error e => (s1, some e)
    | Except.ok m => ({ s1 with current := some (applyGrabCutMask img m) }, none)

-- ---------------------------------------------------------------------
-- Invariants and concrete fixtures
-- ---------------------------------------------------------------------

/-- Every snapshot on the undo history is in RGB mode. -/
def historyRGB (s : EditorState) : Prop :=
  ∀ im ∈ s.history, im.mode = Mode.RGB

instance (s : EditorState) : Decidable (historyRGB s) :=
  inferInstanceAs (Decidable (∀ im ∈ s.history, im.mode = Mode.RGB))

/-- A 1-by-1 red-ish RGB test image. -/
def img1 : Image := { width := 1, height := 1, mode := Mode.RGB, data := [⟨100, 0, 0, 255⟩] }

/-- Session right after loading `img1`. -/
def sLoaded : EditorState := open_image initialState img1

/-- Session with a full (20-entry) undo history: 19 saves after the
baseline of `open_image`. -/
def s20ex : EditorState := saveN 19 sLoaded

/-- A 5-by-5 RGB image — small enough that the grabCut seed rectangle
`(10, 10, w-20, h-20)` is degenerate. -/
def img5 : Image :=
  { width := 5, height := 5, mode := Mode.RGB, data := List.replicate 25 ⟨1, 2, 3, 255⟩ }

/-- A 21-by-21 RGB image — just large enough for a valid grabCut seed
rectangle. -/
def img21 : Image :=
  { width := 21, height := 21, mode := Mode.RGB, data := List.replicate 441 ⟨10, 20, 30, 255⟩ }

/-- A grabCut oracle that labels every pixel foreground. -/
def fullMask : Image → Except String (List Nat) :=
  fun im => Except.ok (List.replicate (im.width * im.height) 1)

/-- Session after loading `img21` and removing its background with the
all-foreground oracle: `current_image` is RGBA. -/
def sAfterRB : EditorState := (remove_background fullMask (open_image initialState img21)).1

/-- A 1-by-1 RGBA image (as left behind by background removal). -/
def imgRGBAc6 : Image := { width := 1, height := 1, mode := Mode.RGBA, data := [⟨10, 20, 30, 40⟩] }

/-- A 1-by-1 RGB image for the sepia witness. -/
def imgSep : Image := { width := 1, height := 1, mode := Mode.RGB, data := [⟨100, 50, 25, 255⟩] }

-- ---------------------------------------------------------------------
-- Shared helper lemmas about the history operations
-- ---------------------------------------------------------------------

/-- `save_history` never changes `current_image`. -/
lemma save_history_current (s : EditorState) : (save_history s).current = s.current := by
  unfold save_history
  cases hc : s.current with
  | none => rw [hc]
  | some img => rfl

/-- `save_history` with an image loaded and an in-cap history: current
is kept, the history length grows by one up to the cap of 20, and
`redo_stack` is cleared. -/
lemma save_history_props (s : EditorState) (c : Image) (hc : s.current = some c)
    (hl : s.history.length ≤ 20) :
    (save_history s).current = some c ∧
    (save_history s).history.length = min (s.history.length + 1) 20 ∧
    (save_history s).redo_stack = [] := by
  unfold save_history
  rw [hc]
  refine ⟨rfl, ?_, rfl⟩
  show (if 20 < (s.history ++ [c.convertRGB]).length
        then (s.history ++ [c.convertRGB]).tail
        else s.history ++ [c.convertRGB]).length = min (s.history.length + 1) 20
  by_cases h : 20 < s.history.length + 1
  · rw [if_pos (by simp; omega)]
    simp
    omega
  · rw [if_neg (by simp; omega)]
    simp
    omega

/-- Iterated saves with an image loaded: current is kept, the history
length follows `min (len + n) 20`, and any save clears `redo_stack`. -/
lemma saveN_props (n : Nat) (s : EditorState) (c : Image) (hc : s.current = some c)
    (hl : s.history.length ≤ 20) :
    (saveN n s).current = some c ∧
    (saveN n s).history.length = min (s.history.length + n) 20 ∧
    (saveN n s).redo_stack = (if n = 0 then s.redo_stack else []) := by
  induction n with
  | zero =>
    refine ⟨hc, ?_, by simp [saveN]⟩
    show s.history.length = min (s.history.length + 0) 20
    omega
  | succ k ih =>
    obtain ⟨ihc, ihl, ihr⟩ := ih
    have hlk : (saveN k s).history.length ≤ 20 := by omega
    have hstep := save_history_props (saveN k s) c ihc hlk
    refine ⟨hstep.1, ?_, ?_⟩
    · show (save_history (saveN k s)).history.length = _
      rw [hstep.2.1, ihl]
      omega
    · show (save_history (saveN k s)).redo_stack = _
      rw [hstep.2.2]
      simp

/-- The state after `open_image`: baseline snapshot as sole history
entry, cleared redo log, original = current = the RGB-converted file. -/
lemma open_image_props (s : EditorState) (img : Image) :
    (open_image s img).current = some img.convertRGB ∧
    (open_image s img).history = [img.convertRGB.convertRGB] ∧
    (open_image s img).redo_stack = [] := by
  unfold open_image save_history
  simp

-- ---------------------------------------------------------------------
-- C4: undo semantics
-- ---------------------------------------------------------------------

/-- C4: if the undo log has at most one entry (in particular right after
a load), `undo` is a no-op; otherwise `undo` moves the most recent undo
entry to the redo log and `current_image` becomes (a copy of) the new
top of the undo log. -/
theorem C4_undo_semantics (s : EditorState) (img : Image) :
    (s.history.length ≤ 1 → undo s = s) ∧
    undo (open_image s img) = open_image s img ∧
    (1 < s.history.length →
      (undo s).history = s.history.dropLast ∧
      (∃ last, s.history.getLast? = some last ∧
        (undo s).redo_stack = s.redo_stack ++ [last]) ∧
      (undo s).current = s.history.dropLast.getLast?) := by
  refine ⟨?_, ?_, ?_⟩
  · intro h
    unfold undo
    rw [dif_neg (by omega)]
  · have hlen : (open_image s img).history.length = 1 := by
      rw [(open_image_props s img).2.1]
      rfl
    unfold undo
    rw [dif_neg (by omega)]
  · intro h
    unfold undo
    rw [dif_pos h]
    have hne : s.history ≠ [] := by
      intro hnil
      rw [hnil] at h
      simp at h
    have hr : s.history.dropLast ≠ [] := by
      apply List.length_pos.mp
      rw [List.length_dropLast]
      omega
    exact ⟨rfl, ⟨s.history.getLast hne, List.getLast?_eq_getLast_of_ne_nil hne, rfl⟩,
      by rw [List.getLast?_eq_getLast_of_ne_nil hr]⟩

/-- C4 witness: concrete two-entry history; `undo` restores the
baseline and parks the popped snapshot on the redo log, and `undo`
right after a load is a no-op. -/
theorem C4_witness :
    undo (open_image initialState img1) = open_image initialState img1 ∧
    (undo (save_history sLoaded)).history = (save_history sLoaded).history.dropLast ∧
    (undo (save_history sLoaded)).current = (save_history sLoaded).history.dropLast.getLast? := by
  refine ⟨(C4_undo_semantics initialState img1).2.1, ?_, ?_⟩
  · exact ((C4_undo_semantics (save_history sLoaded) img1).2.2 (by decide)).1
  · exact ((C4_undo_semantics (save_history sLoaded) img1).2.2 (by decide)).2.2

-- ---------------------------------------------------------------------
-- C3: save semantics and the history cap
-- ---------------------------------------------------------------------

/-- C3 counterexample: after a load, exactly 20 `save_history` calls
leave 20 history entries, not 20 + 1 as the claim states — the 21st
entry (baseline plus 20 saves) already triggers the FIFO eviction. -/
theorem C3_counterexample :
    (saveN 20 (open_image initialState img1)).history.length = 20 ∧
    (saveN 20 (open_image initialState img1)).history.length ≠ 20 + 1 := by
  constructor
  · rfl
  · decide

/-- C3 (amended): after a load, `n` saves leave `min (n+1) 20` history
entries — `n + 1` only while `n ≤ 19` — and clear the redo log; when
the history is at (or beyond) the cap, a save evicts the oldest entry,
index 0, keeping the rest in order (FIFO). -/
theorem C3_save_semantics :
    (∀ (n : Nat) (s : EditorState) (img : Image),
       (saveN n (open_image s img)).history.length = min (n + 1) 20 ∧
       (saveN n (open_image s img)).redo_stack = []) ∧
    (∀ (s : EditorState) (c : Image), s.current = some c → 20 ≤ s.history.length →
       (save_history s).history = s.history.tail ++ [c.convertRGB]) := by
  constructor
  · intro n s img
    have hopen := open_image_props s img
    have h1 : (open_image s img).history.length = 1 := by
      rw [hopen.2.1]
      rfl
    have hprops := saveN_props n (open_image s img) img.convertRGB hopen.1 (by omega)
    refine ⟨?_, ?_⟩
    · rw [hprops.2.1, h1]
      omega
    · rw [hprops.2.2]
      by_cases hn : n = 0
      · subst hn
        rw [if_pos rfl]
        exact hopen.2.2
      · rw [if_neg hn]
  · intro s c hc hlen
    unfold save_history
    rw [hc]
    show (if 20 < (s.history ++ [c.convertRGB]).length
          then (s.history ++ [c.convertRGB]).tail
          else s.history ++ [c.convertRGB]) = s.history.tail ++ [c.convertRGB]
    rw [if_pos (by simp; omega)]
    cases hh : s.history with
    | nil =>
      rw [hh] at hlen
      simp at hlen
    | cons x xs => simp

/-- C3 witness: 5 saves after a load give 6 = min (5+1) 20 entries with
an empty redo log, and a save on a concrete 20-entry history evicts
index 0 while appending the new snapshot. -/
theorem C3_witness :
    (saveN 5 (open_image initialState img1)).history.length = min (5 + 1) 20 ∧
    (saveN 5 (open_image initialState img1)).redo_stack = [] ∧
    (save_history s20ex).history = s20ex.history.tail ++ [img1.convertRGB] :=
  ⟨(C3_save_semantics.1 5 initialState img1).1,
   (C3_save_semantics.1 5 initialState img1).2,
   C3_save_semantics.2 s20ex img1 rfl (by decide)⟩

-- ---------------------------------------------------------------------
-- C2: redo faults whenever the redo log is non-empty
-- ---------------------------------------------------------------------

/-- C2: evaluation of the code at the failing input.  After a load, an
edit (its `save_history` push) and an `undo`, the redo log is
non-empty, yet `redo` hits `IndexError: pop from empty list`:
`save_history` — called by `redo` itself — clears `redo_stack` before
the pop.  With an empty redo log, `redo` is indeed a no-op. -/
theorem C2_redo_fault :
    (undo (save_history sLoaded)).redo_stack ≠ [] ∧
    redo (undo (save_history sLoaded)) = Except.error "IndexError: pop from empty list" ∧
    redo sLoaded = Except.ok sLoaded := by
  refine ⟨by decide, rfl, rfl⟩

-- ---------------------------------------------------------------------
-- C9: set_custom_background refuses non-RGBA buffers without state change
-- ---------------------------------------------------------------------

/-- C9: whenever the current buffer is not in RGBA mode,
`set_custom_background` surfaces the precondition violation and returns
the session state completely unchanged (no history push, no current
change). -/
theorem C9_nonRGBA_noop (s : EditorState) (img : Image) (r g b : Nat)
    (hc : s.current = some img) (hm : img.mode ≠ Mode.RGBA) :
    set_custom_background r g b s
      = (s, some "Please remove background first to make it transparent.") := by
  unfold set_custom_background
  rw [hc]
  simp [hm]

/-- C9 witness: the freshly loaded RGB session is left untouched. -/
theorem C9_witness :
    set_custom_background 0 0 255 sLoaded
      = (sLoaded, some "Please remove background first to make it transparent.") :=
  C9_nonRGBA_noop sLoaded img1 0 0 255 rfl (by decide)

-- ---------------------------------------------------------------------
-- C1: interactive slider gestures
-- ---------------------------------------------------------------------

/-- One slider callback with `save=True`: the enhancement is built from
the state's own current image (not a gesture-start base) and one
history entry is pushed. -/
lemma change_saturation_props (v : Nat) (s : EditorState) (c : Image)
    (hc : s.current = some c) (hl : s.history.length ≤ 20) :
    (change_saturation v true s).current = some (colorEnhance v c) ∧
    (change_saturation v true s).history.length = min (s.history.length + 1) 20 := by
  unfold change_saturation
  rw [hc]
  exact ⟨rfl, (save_history_props s c hc hl).2.1⟩

/-- One brightness-slider callback with `save=True`: the enhancement is
built from the state's own current image and one history entry is
pushed. -/
lemma change_brightness_props (v : Nat) (s : EditorState) (c : Image)
    (hc : s.current = some c) (hl : s.history.length ≤ 20) :
    (change_brightness v true s).current = some (brightnessEnhance v c) ∧
    (change_brightness v true s).history.length = min (s.history.length + 1) 20 := by
  unfold change_brightness
  rw [hc]
  exact ⟨rfl, (save_history_props s c hc hl).2.1⟩

/-- Saturation gestures fold the enhancement over the movement values
and push one history entry per movement (capped at 20). -/
lemma saturationGesture_semantics (vs : List Nat) (s : EditorState) (img : Image)
    (hc : s.current = some img) (hl : s.history.length ≤ 20) :
    (saturationGesture vs s).history.length = min (s.history.length + vs.length) 20 ∧
    (saturationGesture vs s).current
      = some (vs.foldl (fun im v => colorEnhance v im) img) := by
  induction vs generalizing s img with
  | nil =>
    refine ⟨?_, ?_⟩
    · show s.history.length = min (s.history.length + 0) 20
      omega
    · exact hc
  | cons v rest ih =>
    have hstep := change_saturation_props v s img hc hl
    have hl1 : (change_saturation v true s).history.length ≤ 20 := by
      rw [hstep.2]
      omega
    have hrec := ih (change_saturation v true s) (colorEnhance v img) hstep.1 hl1
    refine ⟨?_, ?_⟩
    · show (saturationGesture rest (change_saturation v true s)).history.length = _
      rw [hrec.1, hstep.2]
      simp only [List.length_cons]
      omega
    · show (saturationGesture rest (change_saturation v true s)).current = _
      rw [hrec.2]
      rfl

/-- Brightness gestures fold the enhancement over the movement values
and push one history entry per movement (capped at 20). -/
lemma brightnessGesture_semantics (vs : List Nat) (s : EditorState) (img : Image)
    (hc : s.current = some img) (hl : s.history.length ≤ 20) :
    (brightnessGesture vs s).history.length = min (s.history.length + vs.length) 20 ∧
    (brightnessGesture vs s).current
      = some (vs.foldl (fun im v => brightnessEnhance v im) img) := by
  induction vs generalizing s img with
  | nil =>
    refine ⟨?_, ?_⟩
    · show s.history.length = min (s.history.length + 0) 20
      omega
    · exact hc
  | cons v rest ih =>
    have hstep := change_brightness_props v s img hc hl
    have hl1 : (change_brightness v true s).history.length ≤ 20 := by
      rw [hstep.2]
      omega
    have hrec := ih (change_brightness v true s) (brightnessEnhance v img) hstep.1 hl1
    refine ⟨?_, ?_⟩
    · show (brightnessGesture rest (change_brightness v true s)).history.length = _
      rw [hrec.1, hstep.2]
      simp only [List.length_cons]
      omega
    · show (brightnessGesture rest (change_brightness v true s)).current = _
      rw [hrec.2]
      rfl

/-- C1 counterexample: for the gesture with slider movements 50 then 75
on a freshly loaded 1-by-1 image, the history gains two entries (three
with the baseline), not the single commit entry the claim allows, and
the final image is the iterated enhancement of the previously adjusted
result — different from the enhancement of the gesture-start base at
the final slider value. -/
theorem C1_counterexample :
    (saturationGesture [50, 75] sLoaded).history.length = 3 ∧
    sLoaded.history.length = 1 ∧
    (saturationGesture [50, 75] sLoaded).current
      = some { width := 1, height := 1, mode := Mode.RGB, data := [⟨56, 18, 18, 255⟩] } ∧
    colorEnhance 75 img1
      = { width := 1, height := 1, mode := Mode.RGB, data := [⟨82, 7, 7, 255⟩] } ∧
    (saturationGesture [50, 75] sLoaded).current ≠ some (colorEnhance 75 img1) := by
  refine ⟨rfl, rfl, rfl, rfl, by decide⟩

/-- C1 (amended): each slider movement during an interactive saturation
or brightness gesture recomputes the enhancement from the current
(previously adjusted) image — iteratively, as a left fold over the
movement values — and pushes one history entry per movement (subject to
the cap of 20), rather than computing from a single gesture-start base
and pushing exactly one entry at release. -/
theorem C1_slider_semantics (vs : List Nat) (s : EditorState) (img : Image)
    (hc : s.current = some img) (hl : s.history.length ≤ 20) :
    ((saturationGesture vs s).history.length = min (s.history.length + vs.length) 20 ∧
      (saturationGesture vs s).current
        = some (vs.foldl (fun im v => colorEnhance v im) img)) ∧
    ((brightnessGesture vs s).history.length = min (s.history.length + vs.length) 20 ∧
      (brightnessGesture vs s).current
        = some (vs.foldl (fun im v => brightnessEnhance v im) img)) :=
  ⟨saturationGesture_semantics vs s img hc hl, brightnessGesture_semantics vs s img hc hl⟩

/-- C1 witness: the concrete two-movement gesture instantiates the
amended theorem for both sliders — two new history entries and the
folded (iterative) enhancement as the final image. -/
theorem C1_witness :
    ((saturationGesture [50, 75] sLoaded).history.length
        = min (sLoaded.history.length + [50, 75].length) 20 ∧
      (saturationGesture [50, 75] sLoaded).current
        = some ([50, 75].foldl (fun im v => colorEnhance v im) img1)) ∧
    ((brightnessGesture [50, 75] sLoaded).history.length
        = min (sLoaded.history.length + [50, 75].length) 20 ∧
      (brightnessGesture [50, 75] sLoaded).current
        = some ([50, 75].foldl (fun im v => brightnessEnhance v im) img1)) :=
  C1_slider_semantics [50, 75] sLoaded img1 rfl (by decide)

-- ---------------------------------------------------------------------
-- C5: segmentation of too-small images
-- ---------------------------------------------------------------------

/-- C5: when either dimension is at most 20 — so the seed rectangle
`(10, 10, w-20, h-20)` has non-positive width or height — background
removal surfaces a segmentation error and leaves the current buffer
unchanged, whatever the grabCut estimation would have produced. -/
theorem C5_segmentation_error (mask : Image → Except String (List Nat))
    (s : EditorState) (img : Image)
    (hc : s.current = some img)
    (hdim : img.width ≤ 20 ∨ img.height ≤ 20) :
    (remove_background mask s).2 = some "cv2.error: degenerate grabCut rectangle" ∧
    (remove_background mask s).1.current = s.current := by
  have hstep : cv2grabCutStep mask img = Except.error "cv2.error: degenerate grabCut rectangle" := by
    unfold cv2grabCutStep
    rw [if_pos hdim]
  simp only [remove_background, hc, hstep]
  refine ⟨trivial, ?_⟩
  rw [save_history_current s]
  exact hc

/-- C5 witness: a freshly loaded 5-by-5 image is reported as a
segmentation error with its buffer intact. -/
theorem C5_witness :
    (remove_background fullMask (open_image initialState img5)).2
      = some "cv2.error: degenerate grabCut rectangle" ∧
    (remove_background fullMask (open_image initialState img5)).1.current
      = (open_image initialState img5).current :=
  C5_segmentation_error fullMask (open_image initialState img5) img5.convertRGB rfl (by decide)

-- ---------------------------------------------------------------------
-- C6: the negative filter
-- ---------------------------------------------------------------------

/-- Inverting every sample twice gives back the original pixel list,
provided the samples are genuine bytes. -/
lemma invert_invert_data (data : List Pixel)
    (hb : ∀ p ∈ data, p.r ≤ 255 ∧ p.g ≤ 255 ∧ p.b ≤ 255) :
    (data.map (fun p => Pixel.mk (255 - p.r) (255 - p.g) (255 - p.b) p.a)).map
      (fun p => Pixel.mk (255 - p.r) (255 - p.g) (255 - p.b) p.a) = data := by
  induction data with
  | nil => rfl
  | cons p ps ih =>
    have hps := ih (fun q hq => hb q (by simp [hq]))
    have hhead := hb p (by simp)
    obtain ⟨pr, pg, pb, pa⟩ := p
    have hr : pr ≤ 255 := hhead.1
    have hg : pg ≤ 255 := hhead.2.1
    have hbb : pb ≤ 255 := hhead.2.2
    simp only [List.map_cons, List.cons.injEq]
    refine ⟨?_, hps⟩
    show Pixel.mk (255 - (255 - pr)) (255 - (255 - pg)) (255 - (255 - pb)) pa
      = Pixel.mk pr pg pb pa
    simp only [Pixel.mk.injEq, and_true]
    omega

/-- C6: applying negative twice returns the original buffer exactly —
the per-channel inversion 255 - sample is self-inverse on bytes — and
when the buffer has an alpha channel the alpha samples are left
untouched by negative (Pillow 9.2.0 and later invert the colour bands
of an RGBA image and preserve its alpha band). -/
theorem C6_negative_roundtrip (img : Image)
    (hb : ∀ p ∈ img.data, p.r ≤ 255 ∧ p.g ≤ 255 ∧ p.b ≤ 255) :
    invert (invert img) = img ∧
    (invert img).data.map Pixel.a = img.data.map Pixel.a := by
  obtain ⟨w, h, m, data⟩ := img
  have hdata := invert_invert_data data hb
  have halpha : List.map Pixel.a (data.map (fun p =>
      Pixel.mk (255 - p.r) (255 - p.g) (255 - p.b) p.a)) = List.map Pixel.a data := by
    rw [List.map_map]
    exact List.map_congr_left (fun p _ => rfl)
  cases m with
  | RGB => exact ⟨congrArg (Image.mk w h Mode.RGB) hdata, halpha⟩
  | RGBA => exact ⟨congrArg (Image.mk w h Mode.RGBA) hdata, halpha⟩

/-- C6 witness: a concrete RGBA buffer (alpha 40) round-trips exactly
through two negatives and a single negative keeps its alpha samples. -/
theorem C6_witness :
    invert (invert imgRGBAc6) = imgRGBAc6 ∧
    (invert imgRGBAc6).data.map Pixel.a = imgRGBAc6.data.map Pixel.a :=
  C6_negative_roundtrip imgRGBAc6 (by decide)

-- ---------------------------------------------------------------------
-- C7: the sepia filter
-- ---------------------------------------------------------------------

/-- Each sepia output channel is already saturated at 255. -/
lemma sepiaChan_le (c1 c2 c3 : Nat) (p : Pixel) : sepiaChan c1 c2 c3 p ≤ 255 :=
  Nat.min_le_right _ 255

/-- On the pixel data, the clip and uint8-cast stages are the identity
after the saturating transform. -/
lemma sepia_pipeline_data (data : List Pixel) :
    ((data.map (fun p => Pixel.mk (sepiaChan 393 769 189 p) (sepiaChan 349 686 168 p)
          (sepiaChan 272 534 131 p) p.a)).map
        (fun p => Pixel.mk (min p.r 255) (min p.g 255) (min p.b 255) p.a)).map
      (fun p => Pixel.mk (p.r % 256) (p.g % 256) (p.b % 256) p.a)
    = data.map (fun p => Pixel.mk (sepiaChan 393 769 189 p) (sepiaChan 349 686 168 p)
        (sepiaChan 272 534 131 p) p.a) := by
  induction data with
  | nil => rfl
  | cons p ps ih =>
    simp only [List.map_cons, List.cons.injEq]
    refine ⟨?_, ih⟩
    have h1 := sepiaChan_le 393 769 189 p
    have h2 := sepiaChan_le 349 686 168 p
    have h3 := sepiaChan_le 272 534 131 p
    show Pixel.mk (min (sepiaChan 393 769 189 p) 255 % 256)
        (min (sepiaChan 349 686 168 p) 255 % 256)
        (min (sepiaChan 272 534 131 p) 255 % 256) p.a
      = Pixel.mk (sepiaChan 393 769 189 p) (sepiaChan 349 686 168 p)
        (sepiaChan 272 534 131 p) p.a
    simp only [Pixel.mk.injEq, and_true]
    omega

/-- C7 counterexample: on the pixel (2,0,0) the program produces
(1,1,1) — `cv2.transform` rounds `0.786/0.698/0.544` to the nearest
integer while saturating to uint8 — whereas clamping and then
truncating, as the claim states, would give (0,0,0). -/
theorem C7_counterexample :
    sepia_filter { width := 1, height := 1, mode := Mode.RGB, data := [⟨2, 0, 0, 255⟩] }
      = { width := 1, height := 1, mode := Mode.RGB, data := [⟨1, 1, 1, 255⟩] } ∧
    sepiaTone_spec { width := 1, height := 1, mode := Mode.RGB, data := [⟨2, 0, 0, 255⟩] }
      = { width := 1, height := 1, mode := Mode.RGB, data := [⟨0, 0, 0, 255⟩] } ∧
    sepia_filter { width := 1, height := 1, mode := Mode.RGB, data := [⟨2, 0, 0, 255⟩] }
      ≠ sepiaTone_spec { width := 1, height := 1, mode := Mode.RGB, data := [⟨2, 0, 0, 255⟩] } := by
  refine ⟨rfl, rfl, by decide⟩

/-- C7 (amended): for every RGB buffer the sepia filter applies the
fixed 3x3 matrix per pixel and saturates each channel to [0,255] with
round-to-nearest inside the transform itself; the pipeline's subsequent
clamp and uint8 cast change no sample, so the whole filter equals the
transform step. -/
theorem C7_sepia_semantics (img : Image) (hm : img.mode = Mode.RGB) :
    sepia_filter img = cv2transformSepia img := by
  obtain ⟨w, h, m, data⟩ := img
  exact congrArg (Image.mk w h m) (sepia_pipeline_data data)

/-- C7 witness: concrete evaluation — clip and cast are no-ops on the
transform output of a 1-by-1 image. -/
theorem C7_witness :
    sepia_filter imgSep = cv2transformSepia imgSep ∧
    cv2transformSepia imgSep
      = { width := 1, height := 1, mode := Mode.RGB, data := [⟨82, 73, 57, 255⟩] } :=
  ⟨C7_sepia_semantics imgSep rfl, by decide⟩

-- ---------------------------------------------------------------------
-- C8: compositing a fully opaque buffer
-- ---------------------------------------------------------------------

set_option maxRecDepth 4096 in
/-- With source alpha 255 the compositing coefficients collapse and the
channel arithmetic returns the source sample exactly, for every byte. -/
lemma opaqueChanEval :
    ∀ x : Fin 256, SHIFTFORDIV255 ((x : Nat) * 32640 + 16384) >>> 7 = (x : Nat) := by
  decide

/-- Zipping a long-enough replicated list is a map. -/
lemma zipWith_replicate_map {α β γ : Type} (f : α → β → γ) (a : α) :
    ∀ (l : List β) (n : Nat), l.length ≤ n →
      List.zipWith f (List.replicate n a) l = l.map (f a) := by
  intro l
  induction l with
  | nil =>
    intro n _
    simp
  | cons x xs ih =>
    intro n hn
    cases n with
    | zero => simp at hn
    | succ m =>
      simp only [List.replicate_succ, List.zipWith_cons_cons, List.map_cons]
      rw [ih m (by simpa using hn)]

/-- A fully opaque source pixel hides any destination pixel and keeps
its own RGB samples, with output alpha 255. -/
lemma alphaCompositePixel_opaque (dst src : Pixel) (ha : src.a = 255)
    (hr : src.r ≤ 255) (hg : src.g ≤ 255) (hb : src.b ≤ 255) :
    alphaCompositePixel dst src = { r := src.r, g := src.g, b := src.b, a := 255 } := by
  obtain ⟨sr, sg, sb, sa⟩ := src
  have ha2 : sa = 255 := ha
  subst ha2
  have hr2 : sr ≤ 255 := hr
  have hg2 : sg ≤ 255 := hg
  have hb2 : sb ≤ 255 := hb
  have hR := opaqueChanEval ⟨sr, by omega⟩
  have hG := opaqueChanEval ⟨sg, by omega⟩
  have hB := opaqueChanEval ⟨sb, by omega⟩
  show Pixel.mk
      (SHIFTFORDIV255 (sr * (255 * 255 * 255 * 128 / (255 * 255 + dst.a * (255 - 255)))
        + dst.r * (255 * 128 - 255 * 255 * 255 * 128 / (255 * 255 + dst.a * (255 - 255)))
        + 16384) >>> 7)
      (SHIFTFORDIV255 (sg * (255 * 255 * 255 * 128 / (255 * 255 + dst.a * (255 - 255)))
        + dst.g * (255 * 128 - 255 * 255 * 255 * 128 / (255 * 255 + dst.a * (255 - 255)))
        + 16384) >>> 7)
      (SHIFTFORDIV255 (sb * (255 * 255 * 255 * 128 / (255 * 255 + dst.a * (255 - 255)))
        + dst.b * (255 * 128 - 255 * 255 * 255 * 128 / (255 * 255 + dst.a * (255 - 255)))
        + 16384) >>> 7)
      (SHIFTFORDIV255 (255 * 255 + dst.a * (255 - 255) + 128))
    = Pixel.mk sr sg sb 255
  have hz : (255 : Nat) - 255 = 0 := rfl
  rw [hz, Nat.mul_zero, Nat.add_zero]
  have hcoef : (255 : Nat) * 255 * 255 * 128 / (255 * 255) = 32640 := by norm_num
  rw [hcoef]
  have hcoef2 : (255 : Nat) * 128 - 32640 = 0 := by norm_num
  rw [hcoef2, Nat.mul_zero, Nat.mul_zero, Nat.mul_zero, Nat.add_zero, Nat.add_zero,
    Nat.add_zero]
  have halpha : SHIFTFORDIV255 (255 * 255 + 128) = 255 := by decide
  rw [halpha, hR, hG, hB]

/-- C8: compositing an everywhere-opaque RGBA buffer over any solid
background returns the buffer's own RGB samples with alpha 255 — the
background colour is invisible. -/
theorem C8_opaque_composite (img : Image) (r g b : Nat)
    (_hm : img.mode = Mode.RGBA)
    (hlen : img.data.length = img.width * img.height)
    (hop : ∀ p ∈ img.data, p.a = 255 ∧ p.r ≤ 255 ∧ p.g ≤ 255 ∧ p.b ≤ 255) :
    alpha_composite (Image.new Mode.RGBA img.width img.height r g b) img
      = { width := img.width, height := img.height, mode := Mode.RGBA,
          data := img.data.map (fun p => { r := p.r, g := p.g, b := p.b, a := 255 }) } := by
  unfold alpha_composite Image.new
  simp only [Image.mk.injEq]
  refine ⟨trivial, trivial, trivial, ?_⟩
  rw [zipWith_replicate_map _ _ _ _ (le_of_eq hlen)]
  apply List.map_congr_left
  intro p hp
  obtain ⟨ha, hr, hg, hb⟩ := hop p hp
  exact alphaCompositePixel_opaque ⟨r, g, b, 255⟩ p ha hr hg hb

/-- C8 witness: a concrete opaque 1-by-1 buffer composited over an
arbitrary colour keeps its RGB and stays opaque. -/
theorem C8_witness :
    alpha_composite (Image.new Mode.RGBA 1 1 7 8 9)
        { width := 1, height := 1, mode := Mode.RGBA, data := [⟨10, 20, 30, 255⟩] }
      = { width := 1, height := 1, mode := Mode.RGBA, data := [⟨10, 20, 30, 255⟩] } := by
  have h := C8_opaque_composite
      { width := 1, height := 1, mode := Mode.RGBA, data := [⟨10, 20, 30, 255⟩] } 7 8 9
      rfl (by decide) (by decide)
  simpa using h

-- ---------------------------------------------------------------------
-- C10: history snapshots are RGB
-- ---------------------------------------------------------------------

/-- `save_history` preserves the all-RGB history invariant (the new
snapshot is RGB-converted on entry). -/
lemma historyRGB_save (s : EditorState) (h : historyRGB s) : historyRGB (save_history s) := by
  obtain ⟨o, cur, hist, rs⟩ := s
  cases cur with
  | none => exact h
  | some c =>
    intro im him
    have him2 : im ∈ (if 20 < (hist ++ [c.convertRGB]).length
        then (hist ++ [c.convertRGB]).tail else hist ++ [c.convertRGB]) := him
    have him3 : im ∈ hist ++ [c.convertRGB] := by
      by_cases hlen : 20 < (hist ++ [c.convertRGB]).length
      · rw [if_pos hlen] at him2
        exact List.mem_of_mem_tail him2
      · rw [if_neg hlen] at him2
        exact him2
    rcases List.mem_append.mp him3 with hmem | hmem
    · exact h im hmem
    · rw [List.mem_singleton.mp hmem]
      rfl

/-- `undo` preserves the all-RGB history invariant. -/
lemma historyRGB_undo (s : EditorState) (h : historyRGB s) : historyRGB (undo s) := by
  unfold undo
  by_cases hl : 1 < s.history.length
  · rw [dif_pos hl]
    intro im him
    exact h im (List.dropLast_subset s.history him)
  · rw [dif_neg hl]
    exact h

/-- C10 counterexample: after removing the background (current buffer
RGBA) and undoing, a redo does not yield any buffer at all — it faults
with the redo-log IndexError — contradicting the claim that
undo-then-redo yields an RGB buffer. -/
theorem C10_counterexample :
    (∃ c, sAfterRB.current = some c ∧ c.mode = Mode.RGBA) ∧
    redo (undo sAfterRB) = Except.error "IndexError: pop from empty list" :=
  ⟨⟨applyGrabCutMask img21.convertRGB (List.replicate 441 1), rfl, rfl⟩, rfl⟩

/-- C10 (amended): every snapshot stored in the undo history is
RGB-converted before being stored — the invariant is preserved by
save, undo, load, background removal, background compositing, and any
redo that returns — and any undo from a deeper-than-baseline state
installs an RGB buffer (alpha discarded) as current.  A redo after such
an undo, however, faults instead of yielding a buffer. -/
theorem C10_history_mode (s : EditorState) (h : historyRGB s) :
    historyRGB (save_history s) ∧
    historyRGB (undo s) ∧
    (∀ img, historyRGB (open_image s img)) ∧
    (∀ mask, historyRGB (remove_background mask s).1) ∧
    (∀ r g b, historyRGB (set_custom_background r g b s).1) ∧
    (∀ t, redo s = Except.ok t → historyRGB t) ∧
    (1 < s.history.length → ∃ c, (undo s).current = some c ∧ c.mode = Mode.RGB) := by
  refine ⟨historyRGB_save s h, historyRGB_undo s h, ?_, ?_, ?_, ?_, ?_⟩
  · intro img
    intro im him
    rw [(open_image_props s img).2.1] at him
    rw [List.mem_singleton.mp him]
    rfl
  · intro mask
    cases hc : s.current with
    | none =>
      simp only [remove_background, hc]
      exact h
    | some img =>
      cases hg : cv2grabCutStep mask img with
      | error e =>
        simp only [remove_background, hc, hg]
        exact historyRGB_save s h
      | ok m =>
        simp only [remove_background, hc, hg]
        exact historyRGB_save s h
  · intro r g b
    cases hc : s.current with
    | none =>
      simp only [set_custom_background, hc]
      exact h
    | some img =>
      by_cases hmode : img.mode = Mode.RGBA
      · simp only [set_custom_background, hc, if_pos hmode]
        exact historyRGB_save s h
      · simp only [set_custom_background, hc, if_neg hmode]
        exact h
  · intro t ht
    unfold redo at ht
    by_cases hrs : s.redo_stack ≠ []
    · rw [if_pos hrs] at ht
      cases hp : pyPop (save_history s).redo_stack with
      | none =>
        simp only [hp] at ht
        exact Except.noConfusion ht
      | some pr =>
        obtain ⟨pimg, prest⟩ := pr
        simp only [hp, Except.ok.injEq] at ht
        rw [← ht]
        exact historyRGB_save s h
    · rw [if_neg hrs] at ht
      simp only [Except.ok.injEq] at ht
      rw [← ht]
      exact h
  · intro hl
    have hr : s.history.dropLast ≠ [] := by
      apply List.length_pos.mp
      rw [List.length_dropLast]
      omega
    refine ⟨s.history.dropLast.getLast hr, ?_, ?_⟩
    · unfold undo
      rw [dif_pos hl]
    · exact h _ (List.dropLast_subset s.history (List.getLast_mem hr))

/-- C10 witness: in the concrete post-background-removal session the
history is all-RGB and the undo restores an RGB buffer. -/
theorem C10_witness :
    ∃ c, (undo sAfterRB).current = some c ∧ c.mode = Mode.RGB :=
  (C10_history_mode sAfterRB (by decide)).2.2.2.2.2.2 (by decide)
